import Mathlib

/-!
# Verification of clrenv's resolution and precedence engine

Shallow embedding of the clrenv repository (layered configuration
resolver).  Python dictionaries are modelled as insertion-ordered
association lists (`YMap`), YAML values as the inductive `YVal`.
External collaborators (OS environment, `os.path.expandvars`,
`os.path.expanduser`, the clrypt key file, the SSM parameter store) are
passed in as explicit function parameters, matching the spec's
external-collaborator contract `lookup(name) -> string`.  Python
exceptions are modelled with `Except`: an error result means the
exception propagates to the caller and no state mutation survives.

Layout: all definitions first, then all theorems.
-/

namespace Clrenv

mutual
/-- Values that can appear in a parsed YAML document and in the merged
environment tree.  Mirrors the Python value universe that
`EnvReader.read` can encounter: bool, int, float, str, `None`, lists,
nested mappings, and (in the version of `read.py` that wraps secret
lookups) `Secret(source, value)`.  Float payloads are carried as an
uninterpreted bit pattern: no claim computes with float values, only
their type tag matters (`isinstance` checks). -/
inductive YVal : Type where
  | vbool (b : Bool)
  | vint (n : Int)
  | vfloat (bits : Nat)
  | vstr (s : String)
  | vnull
  | vlist (xs : YList)
  | vsecret (source value : String)
  | vmap (m : YMap)
  deriving Repr

/-- A Python list of YAML values (list leaves are never recursed into by
the reader, but their elements can be arbitrary values). -/
inductive YList : Type where
  | nil
  | cons (v : YVal) (rest : YList)
  deriving Repr

/-- A Python dict with string keys, in insertion order. -/
inductive YMap : Type where
  | nil
  | cons (k : String) (v : YVal) (rest : YMap)
  deriving Repr
end

namespace YMap

/-- `m.get(k)` on a Python dict: the binding for `k`, if any.
(Python dicts have unique keys; on a map with duplicate keys this finds
the first, and `update` below replaces the first, so the two stay
consistent.) -/
def lookup : YMap → String → Option YVal
  | .nil, _ => none
  | .cons k v rest, key => if key = k then some v else lookup rest key

/-- `m[k] = v` on a Python dict: replace the binding if the key is
present (keeping its position), else append the new binding. -/
def update : YMap → String → YVal → YMap
  | .nil, key, val => .cons key val .nil
  | .cons k v rest, key, val =>
      if key = k then .cons k val rest else .cons k v (update rest key val)

/-- `m.keys()` in insertion order. -/
def keys : YMap → List String
  | .nil => []
  | .cons k _ rest => k :: keys rest

/-- `key in m`. -/
def hasKey (m : YMap) (key : String) : Bool :=
  (m.lookup key).isSome

/-- The keys of the map are pairwise distinct (always true of a map that
came from a Python dict). -/
def noDupKeys : YMap → Bool
  | .nil => true
  | .cons k _ rest => !(rest.hasKey k) && noDupKeys rest

end YMap

/-!
## String primitives

Python string operations, modelled over character sequences
(`String.toList`).  Lean's built-in `String.startsWith`, `drop`,
`toUpper`, … are implemented with byte-position loops that do not
reduce definitionally; these list-based equivalents compute by `rfl`,
which keeps every definition in this file evaluable on concrete
input. -/

/-- Python `s.startswith(pre)`. -/
def strStartsWith (s pre : String) : Bool :=
  pre.toList.isPrefixOf s.toList

/-- Python `s[n:]` (drop the first `n` characters). -/
def strDrop (s : String) (n : Nat) : String :=
  ⟨s.toList.drop n⟩

/-- Python `len(s)` (character count). -/
def strLen (s : String) : Nat :=
  s.toList.length

/-- Python `s.upper()` (ASCII). -/
def strToUpper (s : String) : String :=
  ⟨s.toList.map Char.toUpper⟩

/-- Python `s.lower()` (ASCII). -/
def strToLower (s : String) : String :=
  ⟨s.toList.map Char.toLower⟩

/-- Python `sep.join(parts)`. -/
def strJoin (sep : String) : List String → String
  | [] => ""
  | [x] => x
  | x :: y :: rest => x ++ sep ++ strJoin sep (y :: rest)

/-- The characters before the first `__` separator: Python
`s.split("__")[0]`. -/
def firstSegment : List Char → List Char
  | [] => []
  | [c] => [c]
  | c :: c' :: rest =>
      if c = Char.ofNat 95 ∧ c' = Char.ofNat 95 then []
      else c :: firstSegment (c' :: rest)

/-- `pat` occurs as a contiguous run inside `l`. -/
def listIsInfixOf (pat : List Char) : List Char → Bool
  | [] => pat.isEmpty
  | c :: rest => pat.isPrefixOf (c :: rest) || listIsInfixOf pat rest

/-- Python `pat in s` (substring containment, used to state what a
representation shows and what it never shows). -/
def strContains (s pat : String) : Bool :=
  listIsInfixOf pat.toList s.toList

/-!
## Deep Merger (`src/clrenv/deepmerge.py`)

The Python `deepmerge(dst, src)` runs a work deque of `(dst, src)` pairs
and mutates `dst` in place; for each key of `src` it either schedules a
recursive merge (both values are mappings) or overwrites `dst[key]`.  On
tree-shaped inputs (which is what YAML parsing produces — no aliasing,
no cycles) that loop computes exactly the following recursion, which is
the faithful pure rendering of the in-place algorithm: bindings of
`src` are folded into `dst` left to right, and a sub-merge is performed
where both sides hold mappings. -/
mutual
/-- `deepmerge(dst, src)` from `deepmerge.py`: fold the bindings of
`src` into `dst`, binding by binding. -/
def deepmerge (dst : YMap) (src : YMap) : YMap :=
  match src with
  | .nil => dst
  | .cons k sv rest => deepmerge (dst.update k (mergeVal (dst.lookup k) sv)) rest

/-- The per-key action of the loop body in `deepmerge.py`: when both the
existing `dst` value and the `src` value are mappings they are merged
recursively (the Python code schedules the pair on the work deque),
otherwise the `src` value overwrites. -/
def mergeVal : Option YVal → YVal → YVal
  | some (.vmap d), .vmap s => .vmap (deepmerge d s)
  | _, sv => sv
end

/-!
## Document Reader (`src/clrenv/read.py`)
-/

/-- External collaborators consumed by `EnvReader`
(spec: "Excluded, treated as external collaborators").
`expandvars` is `os.path.expandvars`, `expanduser` is
`os.path.expanduser`, `clrypt` is
`str(clrypt.read_file_as_dict("keys", "keys").get(name, ""))` and
`ssm` is the SSM parameter-store lookup (offline handling included).
They are total string functions, matching the spec's backend contract
`lookup(name) -> string`; no claim in scope concerns their failures. -/
structure Collab where
  expandvars : String → String
  expanduser : String → String
  clrypt : String → String
  ssm : String → String

/-- Collaborators that change nothing: variable/home expansion is the
identity and both secret backends return the empty string.  Used to
instantiate closed examples whose strings contain no `$`/`~`/directive
forms. -/
def idCollab : Collab :=
  { expandvars := id, expanduser := id, clrypt := fun _ => "", ssm := fun _ => "" }

/-- `EnvReader.postprocess_str` from `read.py`: expand environment
variables, then the first matching directive wins — leading `~` is
home-expanded, `^keyfile ` (9 chars) dispatches to clrypt with the
prefix stripped, `^parameter ` (11 chars) dispatches to the parameter
store with the prefix stripped; otherwise the (expanded) value is
returned unchanged. -/
def postprocess_str (C : Collab) (value : String) : String :=
  let value := C.expandvars value
  if strStartsWith value "~" then C.expanduser value
  else if strStartsWith value "^keyfile " then C.clrypt (strDrop value 9)
  else if strStartsWith value "^parameter " then C.ssm (strDrop value 11)
  else value

mutual
/-- The post-processing loop of `EnvReader.read` (`read.py`): walks the
merged tree, rejecting keys that start with `_`, recursing into nested
mappings, coercing `None` to `""`, post-processing strings, passing
bool/int/float/list values through (list *elements* are never visited),
and rejecting any other value type.  The Python loop uses an explicit
deque of pending mappings; on the tree-shaped merged result it visits
exactly the bindings this recursion visits. -/
def ppMap (C : Collab) (keyPrefix : String) (m : YMap) : Except String YMap :=
  match m with
  | .nil => .ok .nil
  | .cons k v rest =>
      if strStartsWith k "_" then
        .error ("Keys can not start with _: " ++ keyPrefix ++ k)
      else
        match ppVal C keyPrefix k v with
        | .error e => .error e
        | .ok v' =>
            match ppMap C keyPrefix rest with
            | .error e => .error e
            | .ok rest' => .ok (.cons k v' rest')

/-- Post-processing of a single binding `keyPrefix ++ k = v` by the loop
body of `EnvReader.read`. -/
def ppVal (C : Collab) (keyPrefix k : String) (v : YVal) : Except String YVal :=
  match v with
  | .vmap m =>
      match ppMap C (keyPrefix ++ k ++ ".") m with
      | .error e => .error e
      | .ok m' => .ok (.vmap m')
  | .vnull => .ok (.vstr "")
  | .vstr s => .ok (.vstr (postprocess_str C s))
  | .vbool b => .ok (.vbool b)
  | .vint n => .ok (.vint n)
  | .vfloat x => .ok (.vfloat x)
  | .vlist xs => .ok (.vlist xs)
  | .vsecret _ _ => .error ("Non primitive value type: " ++ keyPrefix ++ k)
end

/-- One iteration of the merge loop in `EnvReader.read`: skip a document
that parsed to `None` or to an empty mapping (both falsy in Python),
otherwise require a `base` section (a mapping) and merge it, then — when
a mode is active and the document has a section of that name — merge the
mode section and record that the mode was seen.  A non-mapping `base` or
mode section makes the Python code fail inside `deepmerge`
(`AttributeError`); both failures are modelled as errors. -/
def mergeStep (mode : Option String) (acc : Except String (Bool × YMap))
    (doc : Option YMap) : Except String (Bool × YMap) :=
  match acc with
  | .error e => .error e
  | .ok (modeRead, result) =>
  match doc with
  | none => .ok (modeRead, result)
  | some .nil => .ok (modeRead, result)
  | some (.cons k v rest) =>
      let config : YMap := .cons k v rest
      match config.lookup "base" with
      | some (.vmap b) =>
          let result := deepmerge result b
          match mode with
          | some mname =>
              match config.lookup mname with
              | some (.vmap sec) => .ok (true, deepmerge result sec)
              | some _ => .error "mode section is not a mapping"
              | none => .ok (modeRead, result)
          | none => .ok (modeRead, result)
      | some _ => .error "base section is not a mapping"
      | none => .error "base section missing"

/-- The merge phase of `EnvReader.read`: documents are given highest
precedence first and are processed in reverse (`environment_paths[::-1]`),
so that later merges overwrite earlier ones; afterwards a requested mode
that was never found is an error.  `CLRENV_MODE` unset or `""` (falsy)
is modelled as `mode = none`. -/
def mergeDocs (docs : List (Option YMap)) (mode : Option String) :
    Except String YMap :=
  match docs.reverse.foldl (mergeStep mode) (.ok (false, .nil)) with
  | .error e => .error e
  | .ok (modeRead, result) =>
      match mode with
      | some mname =>
          if modeRead then .ok result
          else .error ("CLRENV_MODE set to " ++ mname ++
            ", but no corresponding section found in any environment file.")
      | none => .ok result

/-- `EnvReader.read` from `read.py`: merge all documents, then
post-process every leaf of the merged tree. -/
def EnvReader_read (C : Collab) (docs : List (Option YMap)) (mode : Option String) :
    Except String YMap :=
  match mergeDocs docs mode with
  | .error e => .error e
  | .ok merged => ppMap C "" merged

mutual
/-- `true` iff an explicit null appears anywhere in the tree, including
inside list leaves. -/
def hasNullAnywhereMap : YMap → Bool
  | .nil => false
  | .cons _ v rest => hasNullAnywhereVal v || hasNullAnywhereMap rest

/-- `true` iff an explicit null appears in this value, including inside
list elements. -/
def hasNullAnywhereVal : YVal → Bool
  | .vnull => true
  | .vmap m => hasNullAnywhereMap m
  | .vlist xs => hasNullAnywhereList xs
  | _ => false

/-- `true` iff an explicit null appears among these list elements. -/
def hasNullAnywhereList : YList → Bool
  | .nil => false
  | .cons v rest => hasNullAnywhereVal v || hasNullAnywhereList rest
end

mutual
/-- `true` iff some mapping in the tree binds a key directly to an
explicit null (nulls hidden inside list leaves are not counted). -/
def hasNullDirectMap : YMap → Bool
  | .nil => false
  | .cons _ v rest => hasNullDirectVal v || hasNullDirectMap rest

/-- `true` iff this value is an explicit null or contains a mapping that
directly binds one. -/
def hasNullDirectVal : YVal → Bool
  | .vnull => true
  | .vmap m => hasNullDirectMap m
  | _ => false
end

/-!
## Lazy Tree View (`src/clrenv/evaluate.py`)
-/

/-- Association-list lookup, the model of `d[k]` / `d.get(k)` for the
auxiliary Python dicts (override store, `os.environ`). -/
def alookup {α β : Type} [DecidableEq α] : List (α × β) → α → Option β
  | [], _ => none
  | (k, v) :: rest, key => if key = k then some v else alookup rest key

/-- Association-list store, the model of `d[k] = v`. -/
def aset {α β : Type} [DecidableEq α] : List (α × β) → α → β → List (α × β)
  | [], key, val => [(key, val)]
  | (k, v) :: rest, key, val =>
      if key = k then (k, val) :: rest else (k, v) :: aset rest key val

/-- The Python value universe a caller can pass to
`RootClrEnv.set_runtime_override`.  `pyfloat` carries an uninterpreted
bit pattern, `pydict` and `pyobj` stand for mapping values and arbitrary
objects — only their type tag is ever inspected (`isinstance`). -/
inductive PyVal : Type where
  | pybool (b : Bool)
  | pyint (n : Int)
  | pyfloat (bits : Nat)
  | pystr (s : String)
  | pynone
  | pylist (xs : List PyVal)
  | pydict
  | pyobj

/-- `isinstance(value, PrimitiveValue.__args__)` with
`PrimitiveValue = Union[bool, int, float, str]` (from `read.py`): the
type check applied by `set_runtime_override`.  Note that every list —
homogeneous-primitive or not — fails this check. -/
def isPrimInstance : PyVal → Bool
  | .pybool _ => true
  | .pyint _ => true
  | .pyfloat _ => true
  | .pystr _ => true
  | _ => false

/-- Conversion of a validated primitive override value into the tree
value universe.  Only ever applied behind `isPrimInstance`; the
non-primitive fallback is unreachable through the API. -/
def pyPrimToYVal : PyVal → YVal
  | .pybool b => .vbool b
  | .pyint n => .vint n
  | .pyfloat x => .vfloat x
  | .pystr s => .vstr s
  | _ => .vnull

/-- `RootClrEnv._runtime_overrides`: a dict from parent key-path tuple
to a dict from leaf key to (primitive) value,
`env.a.b.c = 'd' ==> \x7b('a','b'): \x7b'c': 'd'\x7d\x7d`. -/
abbrev OvStore : Type := List (List String × List (String × YVal))

/-- The mutable state owned by the root node: the runtime override store
and the process environment (`os.environ`, a finite string-to-string
map). -/
structure RootState where
  overrides : OvStore
  osEnv : List (String × String)

/-- `SubClrEnv._make_env_var_name(key_path)`: prepend `CLRENV`, join
with `__`, upper-case. -/
def make_env_var_name (key_path : List String) : String :=
  strToUpper (strJoin "__" ("CLRENV" :: key_path))

/-- `SubClrEnv._make_env_var_name(as_prefix=True)`: same with a trailing
`__` (an empty segment is appended before joining). -/
def make_env_var_pref (key_path : List String) : String :=
  strToUpper (strJoin "__" (("CLRENV" :: key_path) ++ [""]))

/-- The runtime-override lookup performed first by
`SubClrEnv._evaluate_key`: `self._key_path in overrides` and then
`key in overrides[self._key_path]`. -/
def lookupOverride (root : RootState) (keyPath : List String) (key : String) :
    Option YVal :=
  match alookup root.overrides keyPath with
  | some leafMap => alookup leafMap key
  | none => none

/-- `SubClrEnv._sub_keys`: keys of the cached merged subtree, plus
runtime-override keys at this path, plus the next path segment
(lower-cased) of every environment variable whose name starts with this
node's `CLRENV__...__` prefix. -/
def subKeys (root : RootState) (keyPath : List String) (env : YMap) :
    List String :=
  env.keys
    ++ (match alookup root.overrides keyPath with
        | some leafMap => leafMap.map Prod.fst
        | none => [])
    ++ (root.osEnv.filterMap fun p =>
          if strStartsWith p.1 (make_env_var_pref keyPath) then
            some (strToLower
              ⟨firstSegment (strDrop p.1 (strLen (make_env_var_pref keyPath))).toList⟩)
          else none)

/-- `SubClrEnv._evaluate_key`: resolve `key` at the node with key path
`keyPath` and cached merged subtree `env`, consulting in order
(1) runtime overrides, (2) the environment variable named
`make_env_var_name (keyPath ++ [key])`, (3) the merged subtree; a key
that is absent from all three but discoverable through `_sub_keys`
(an intermediate env-var-only node) yields an empty mapping; `none`
means KeyError. -/
def evaluateKey (root : RootState) (keyPath : List String) (env : YMap)
    (key : String) : Option YVal :=
  match lookupOverride root keyPath key with
  | some v => some v
  | none =>
    match alookup root.osEnv (make_env_var_name (keyPath ++ [key])) with
    | some s => some (.vstr s)
    | none =>
      match env.lookup key with
      | some v => some v
      | none =>
          if (subKeys root keyPath env).contains key then some (.vmap .nil)
          else none

/-- Modelled from the spec: the missing newer `evaluate.py` unwraps a
resolved `Secret` to its plain value on a normal read ("If the value is
a Secret, unwrap to its plain value for normal reads"); the version of
`_evaluate_key` under `src/` predates secret wrapping.  Everything else
is `evaluateKey` unchanged. -/
def evaluateKeyUnwrap (root : RootState) (keyPath : List String) (env : YMap)
    (key : String) : Option YVal :=
  match evaluateKey root keyPath env key with
  | some (.vsecret _ v) => some (.vstr v)
  | r => r

/-- Python truthiness of `SubClrEnv._cached_env`
(`Optional[NestedMapping]`): `None` and the empty mapping are falsy. -/
def cacheIsFalsy : Option YMap → Bool
  | none => true
  | some .nil => true
  | some (.cons _ _ _) => false

/-- The `SubClrEnv._env` property:
`if not self._cached_env: self._cached_env = self._make_env()` followed
by `return self._cached_env`.  `make` is the value `_make_env()` would
produce (for the root: reading and merging the documents from disk).
Returns the value returned to the caller, the new cache state, and
whether `_make_env` was invoked during this access. -/
def envProp (cached : Option YMap) (make : YMap) : YMap × Option YMap × Bool :=
  if cacheIsFalsy cached then (make, some make, true)
  else (cached.getD .nil, cached, false)

/-- The existence walk of `set_runtime_override`
(`for name in key_path: assert name in parent; parent = parent[name]`).
`name in parent` on a `SubClrEnv` goes through `__getitem__`: it fails
for keys starting with `_` and for keys `_evaluate_key` cannot resolve.
When the resolved value is a mapping, the walk descends into a child
node whose cached subtree is `parent._env.get(name, \x7b\x7d)`; when it
is a plain value, any remaining segment makes the Python loop raise
(`AssertionError` from the membership test, or `TypeError` from
indexing a primitive) — either way `set_runtime_override` propagates an
exception, modelled as a failed walk. -/
def walkExists (root : RootState) : List String → List String → YMap → Bool
  | [], _, _ => true
  | name :: restPath, keyPath, env =>
      if strStartsWith name "_" then false
      else
        match evaluateKey root keyPath env name with
        | none => false
        | some (.vmap _) =>
            walkExists root restPath (keyPath ++ [name])
              (match env.lookup name with
               | some (.vmap sub) => sub
               | _ => .nil)
        | some _ => restPath.isEmpty

/-- `RootClrEnv.set_runtime_override(key_path, value)` (`evaluate.py`):
an empty key path is rejected; every segment of the path must already
resolve (`assert name in parent` while walking); the value must satisfy
`isinstance(value, (bool, int, float, str))`; only then is the override
stored under (parent-path, leaf-key).  A dotted-string `key_path` is
split on `.` before this point, so the model takes the segment list.
An `.error` result models the raised exception: the override store is
left unchanged. -/
def set_runtime_override (root : RootState) (rootEnv : YMap)
    (key_path : List String) (value : PyVal) : Except String OvStore :=
  if key_path.isEmpty then .error "key_path can not be empty."
  else if !(walkExists root key_path [] rootEnv) then
    .error "assertion failed: key path does not already resolve"
  else if !(isPrimInstance value) then
    .error "Env values must be one of \x7bstr, int, float, boolean\x7d."
  else
    let parents := key_path.dropLast
    let leaf := key_path.getLastD ""
    let inner := (alookup root.overrides parents).getD []
    .ok (aset root.overrides parents (aset inner leaf (pyPrimToYVal value)))

/-!
## Secrets (`src/clrenv/types.py`) and representations
-/

/-- A single-quote character, built numerically to keep string literals
plain. -/
def sq : String := String.singleton (Char.ofNat 39)

/-- `Secret` from `types.py`: a resolved secret value, carrying the
directive source text and the plain value. -/
structure Secret where
  source : String
  value : String

/-- `Secret.__repr__` from `types.py`:
return a representation without exposing the secret — only `source`
appears, never `value`. -/
def Secret.reprStr (s : Secret) : String :=
  "Secret(source=" ++ sq ++ s.source ++ sq ++ ")"

mutual
/-- Python `repr` of a tree value as it appears inside
`SubClrEnv.__repr__` (the f-string renders the cached mapping).  Secrets
render through `Secret.__repr__`.  The float payload is uninterpreted,
so its text is a fixed placeholder — no claim inspects float text. -/
def reprVal : YVal → String
  | .vbool b => if b then "True" else "False"
  | .vint n => toString n
  | .vfloat _ => "0.0"
  | .vstr s => sq ++ s ++ sq
  | .vnull => "None"
  | .vlist xs => "[" ++ reprListEntries xs ++ "]"
  | .vsecret src value => Secret.reprStr ⟨src, value⟩
  | .vmap m => "\x7b" ++ reprMapEntries m ++ "\x7d"

/-- Comma-separated `repr` of list elements. -/
def reprListEntries : YList → String
  | .nil => ""
  | .cons v .nil => reprVal v
  | .cons v rest => reprVal v ++ ", " ++ reprListEntries rest

/-- Comma-separated `repr` of dict entries. -/
def reprMapEntries : YMap → String
  | .nil => ""
  | .cons k v .nil => sq ++ k ++ sq ++ ": " ++ reprVal v
  | .cons k v rest => sq ++ k ++ sq ++ ": " ++ reprVal v ++ ", " ++ reprMapEntries rest
end

/-- `SubClrEnv.__repr__` from `evaluate.py`:
`f"ClrEnv[\x7b'.'.join(self._key_path)\x7d]=\x7bself._env\x7d"`. -/
def SubClrEnv_repr (keyPath : List String) (env : YMap) : String :=
  "ClrEnv[" ++ strJoin "." keyPath ++ "]=" ++ reprVal (.vmap env)

mutual
/-- Replace every secret's plain value with `""`, keeping everything
else (used to state that representations depend only on secret
sources). -/
def scrubVal : YVal → YVal
  | .vsecret src _ => .vsecret src ""
  | .vmap m => .vmap (scrubMap m)
  | .vlist xs => .vlist (scrubList xs)
  | v => v

/-- `scrubVal` over list elements. -/
def scrubList : YList → YList
  | .nil => .nil
  | .cons v rest => .cons (scrubVal v) (scrubList rest)

/-- `scrubVal` over map entries. -/
def scrubMap : YMap → YMap
  | .nil => .nil
  | .cons k v rest => .cons k (scrubVal v) (scrubMap rest)
end

/-!
## Chamber-capable reader

The repository's tests (`test_read.py`) import `MissingEnvVar` and
`MissingEnvVarsError` from `clrenv.read` and exercise a `^chamber/v1`
directive and `Secret`-wrapped key-file/parameter lookups, but the
`read.py` under `src/` contains none of that: the deciding code is a
newer version of `read.py` that is not in the source tree.  The
definitions below are therefore modelled from the spec (§4.3, §6, §7)
and settled against that model.
-/

/-- Modelled from the spec: one missing chamber mapping, carrying the
key path, the directive argument, and the derived upper-cased
environment-variable name (the `MissingEnvVar` named tuple that the
tests obtain from `clrenv.read`). -/
structure MissingEnvVar where
  yaml_key_path : String
  chamber_var_name : String
  env_var : String

/-- Modelled from the spec: errors of the chamber-capable reader —
either an ordinary immediate error or the single aggregated
`MissingEnvVarsError` listing every missing chamber mapping. -/
inductive ReadErr : Type where
  | fail (msg : String)
  | missingEnvVars (missing : List MissingEnvVar)

/-- Modelled from the spec: a chamber directive argument must match
`[A-Za-z0-9_]`. -/
def validChamberName (name : String) : Bool :=
  name.toList.all fun c => c.isAlphanum || (c == Char.ofNat 95)

/-- Modelled from the spec: the chamber-capable `postprocess_str` of the
newer `read.py` (absent from `src/`).  Environment expansion is applied
first, then the first directive match wins; key-file and parameter
lookups are wrapped as `Secret(source = original directive text,
value = backend value)`; `^chamber/v1 <name>` (prefix of 12 characters)
validates `<name>` against `[A-Za-z0-9_]` — an invalid character is an
immediate error naming the key path and the argument — derives the
environment variable by upper-casing `<name>`, and records an absent or
empty variable as a missing mapping to be aggregated at the end of the
read instead of failing at once. -/
def postprocess_strC (C : Collab) (getenv : String → Option String)
    (keyPath : String) (value : String) :
    Except ReadErr (YVal × List MissingEnvVar) :=
  let v := C.expandvars value
  if strStartsWith v "~" then .ok (.vstr (C.expanduser v), [])
  else if strStartsWith v "^keyfile " then .ok (.vsecret v (C.clrypt (strDrop v 9)), [])
  else if strStartsWith v "^parameter " then .ok (.vsecret v (C.ssm (strDrop v 11)), [])
  else if strStartsWith v "^chamber/v1 " then
    let name := strDrop v 12
    if !(validChamberName name) then
      .error (.fail ("Chamber variable name " ++ sq ++ name ++ sq ++ " in key " ++
        sq ++ keyPath ++ sq ++ " contains invalid characters."))
    else
      match getenv (strToUpper name) with
      | none => .ok (.vstr "", [⟨keyPath, name, strToUpper name⟩])
      | some "" => .ok (.vstr "", [⟨keyPath, name, strToUpper name⟩])
      | some s => .ok (.vsecret v s, [])
  else .ok (.vstr v, [])

mutual
/-- Modelled from the spec: the post-processing walk of the
chamber-capable reader.  Identical to `ppMap` except that string leaves
go through `postprocess_strC` and the missing chamber mappings found in
the subtree are accumulated and returned alongside the result. -/
def ppMapC (C : Collab) (getenv : String → Option String)
    (keyPrefix : String) (m : YMap) :
    Except ReadErr (YMap × List MissingEnvVar) :=
  match m with
  | .nil => .ok (.nil, [])
  | .cons k v rest =>
      if strStartsWith k "_" then
        .error (.fail ("Keys can not start with _: " ++ keyPrefix ++ k))
      else
        match ppValC C getenv keyPrefix k v with
        | .error e => .error e
        | .ok (v', miss₁) =>
            match ppMapC C getenv keyPrefix rest with
            | .error e => .error e
            | .ok (rest', miss₂) => .ok (.cons k v' rest', miss₁ ++ miss₂)

/-- Modelled from the spec: post-processing of a single binding by the
chamber-capable reader. -/
def ppValC (C : Collab) (getenv : String → Option String)
    (keyPrefix k : String) (v : YVal) :
    Except ReadErr (YVal × List MissingEnvVar) :=
  match v with
  | .vmap m =>
      match ppMapC C getenv (keyPrefix ++ k ++ ".") m with
      | .error e => .error e
      | .ok (m', miss) => .ok (.vmap m', miss)
  | .vnull => .ok (.vstr "", [])
  | .vstr s => postprocess_strC C getenv (keyPrefix ++ k) s
  | .vbool b => .ok (.vbool b, [])
  | .vint n => .ok (.vint n, [])
  | .vfloat x => .ok (.vfloat x, [])
  | .vlist xs => .ok (.vlist xs, [])
  | .vsecret _ _ => .error (.fail ("Non primitive value type: " ++ keyPrefix ++ k))
end

/-- Modelled from the spec: `EnvReader.read` of the chamber-capable
reader — merge the documents exactly as the `src/` reader does,
post-process the tree while collecting missing chamber mappings, and
fail once at the end with the single aggregated error when any mapping
was missing. -/
def EnvReader_readC (C : Collab) (getenv : String → Option String)
    (docs : List (Option YMap)) (mode : Option String) : Except ReadErr YMap :=
  match mergeDocs docs mode with
  | .error e => .error (.fail e)
  | .ok merged =>
      match ppMapC C getenv "" merged with
      | .error e => .error e
      | .ok (m, missing) =>
          if missing.isEmpty then .ok m else .error (.missingEnvVars missing)

/-!
## Theorems
-/

namespace YMap

theorem lookup_update_self : ∀ (m : YMap) (key : String) (val : YVal),
    (m.update key val).lookup key = some val
  | .nil, key, val => by simp [update, lookup]
  | .cons k v rest, key, val => by
      by_cases h : key = k
      · simp [update, h, lookup]
      · simp [update, lookup, h, lookup_update_self rest key val]

theorem lookup_update_ne : ∀ (m : YMap) (key key' : String) (val : YVal),
    key' ≠ key → (m.update key val).lookup key' = m.lookup key'
  | .nil, key, key', val, h => by simp [update, lookup, h]
  | .cons k v rest, key, key', val, h => by
      by_cases hk : key = k
      · subst hk
        simp [update, lookup, h]
      · by_cases hk' : key' = k
        · simp [update, hk, lookup, hk']
        · simp [update, hk, lookup, hk', lookup_update_ne rest key key' val h]

theorem lookup_of_not_hasKey (m : YMap) (key : String)
    (h : m.hasKey key = false) : m.lookup key = none := by
  unfold hasKey at h
  cases hl : m.lookup key with
  | none => rfl
  | some v => rw [hl] at h; simp at h

end YMap

theorem deepmerge_lookup : ∀ (dst src : YMap), src.noDupKeys = true →
    ∀ (k : String),
    (deepmerge dst src).lookup k =
      match src.lookup k with
      | none => dst.lookup k
      | some sv => some (mergeVal (dst.lookup k) sv)
  | dst, .nil, _, k => by simp [deepmerge, YMap.lookup]
  | dst, .cons k0 sv rest, h, k => by
      simp only [YMap.noDupKeys, Bool.and_eq_true, Bool.not_eq_true'] at h
      obtain ⟨hnk, hnd⟩ := h
      rw [deepmerge]
      rw [deepmerge_lookup (dst.update k0 (mergeVal (dst.lookup k0) sv)) rest hnd k]
      by_cases hk : k = k0
      · subst hk
        rw [YMap.lookup_of_not_hasKey rest k hnk, YMap.lookup_update_self]
        simp [YMap.lookup]
      · simp only [YMap.lookup, hk, if_false]
        rw [YMap.lookup_update_ne dst k0 k _ hk]
termination_by dst src _ _ => sizeOf src
decreasing_by all_goals (first | (simp; omega) | simp)

theorem mergeVal_map_map (d s : YMap) :
    mergeVal (some (.vmap d)) (.vmap s) = .vmap (deepmerge d s) := rfl

theorem mergeVal_not_map_left (o : Option YVal) (sv : YVal)
    (h : ∀ d, o ≠ some (.vmap d)) : mergeVal o sv = sv := by
  cases o with
  | none => cases sv <;> rfl
  | some w => cases w <;> first | exact absurd rfl (h _) | (cases sv <;> rfl)

theorem mergeVal_not_map_right (o : Option YVal) (sv : YVal)
    (h : ∀ s, sv ≠ .vmap s) : mergeVal o sv = sv := by
  cases sv <;>
    first
    | exact absurd rfl (h _)
    | (cases o with
       | none => rfl
       | some w => cases w <;> rfl)

/-- **C3.** `merge(dst, src)` mutates `dst` in place so that after it
returns, for every key of `src`: if both `dst`'s and `src`'s values at
that key were nested maps, `dst`'s value is the recursive merge of the
two; otherwise `dst`'s value at that key equals `src`'s value wholly
(lists and scalars replaced, never appended or element-merged); keys of
`dst` absent from `src` are left unchanged, and the result is
independent of the order in which sibling keys are visited.  The first
conjunct is the pointwise characterization: the merged binding at `k`
is a function of the two bindings at `k` alone, which is the formal
content of sibling-visit-order independence.  `src` has distinct keys,
as every Python dict does. -/
theorem claim_C3 (dst src : YMap) (hnd : src.noDupKeys = true) (k : String) :
    ((deepmerge dst src).lookup k =
      match src.lookup k with
      | none => dst.lookup k
      | some sv => some (mergeVal (dst.lookup k) sv))
  ∧ (∀ d s, dst.lookup k = some (.vmap d) → src.lookup k = some (.vmap s) →
      (deepmerge dst src).lookup k = some (.vmap (deepmerge d s)))
  ∧ (∀ sv, src.lookup k = some sv →
      ((∀ s, sv ≠ .vmap s) ∨ (∀ d, dst.lookup k ≠ some (.vmap d))) →
      (deepmerge dst src).lookup k = some sv)
  ∧ (src.lookup k = none → (deepmerge dst src).lookup k = dst.lookup k) := by
  have hc := deepmerge_lookup dst src hnd k
  refine ⟨hc, ?_, ?_, ?_⟩
  · intro d s hd hs
    rw [hc, hs, hd]
    rfl
  · intro sv hs hor
    rw [hc, hs]
    show some (mergeVal (dst.lookup k) sv) = some sv
    rcases hor with hnm | hdm
    · rw [mergeVal_not_map_right _ _ hnm]
    · rw [mergeVal_not_map_left _ _ hdm]
  · intro hn
    rw [hc, hn]

/-- Witness for C3 at the data of `test_deepmerge`:
`dst = \x7ba: \x7bb: 1, c: 1\x7d\x7d`,
`src = \x7ba: \x7bb: 3, d: 3\x7d\x7d` merge to
`\x7ba: \x7bb: 3, c: 1, d: 3\x7d\x7d`. -/
theorem claim_C3_witness :
    (deepmerge
      (.cons "a" (.vmap (.cons "b" (.vint 1) (.cons "c" (.vint 1) .nil))) .nil)
      (.cons "a" (.vmap (.cons "b" (.vint 3) (.cons "d" (.vint 3) .nil))) .nil)).lookup "a"
    = some (.vmap (.cons "b" (.vint 3) (.cons "c" (.vint 1) (.cons "d" (.vint 3) .nil)))) :=
  (claim_C3
    (.cons "a" (.vmap (.cons "b" (.vint 1) (.cons "c" (.vint 1) .nil))) .nil)
    (.cons "a" (.vmap (.cons "b" (.vint 3) (.cons "d" (.vint 3) .nil))) .nil)
    rfl "a").2.1 _ _ rfl rfl

theorem mergeStep_none_ok (mr : Bool) (r : YMap) (c : YMap) (b : YMap)
    (hb : c.lookup "base" = some (.vmap b)) :
    mergeStep none (.ok (mr, r)) (some c) = .ok (mr, deepmerge r b) := by
  cases c with
  | nil => simp [YMap.lookup] at hb
  | cons k v rest => simp only [mergeStep, hb]

theorem fold_mergeStep_bases : ∀ (l : List YMap) (mr : Bool) (r : YMap),
    (∀ c ∈ l, ∃ b, c.lookup "base" = some (.vmap b)) →
    ∃ r', (l.map some).foldl (mergeStep none) (.ok (mr, r)) = .ok (mr, r')
  | [], _, r, _ => ⟨r, rfl⟩
  | c :: rest, mr, r, h => by
      obtain ⟨b, hb⟩ := h c (by simp)
      rw [List.map_cons, List.foldl_cons, mergeStep_none_ok mr r c b hb]
      exact fold_mergeStep_bases rest mr (deepmerge r b)
        (fun c' hc' => h c' (by simp [hc']))

theorem fold_mergeStep_preserves : ∀ (l : List YMap) (mr : Bool) (r : YMap)
    (k : String),
    (∀ c ∈ l, ∃ b, c.lookup "base" = some (.vmap b) ∧ b.noDupKeys = true ∧
      b.lookup k = none) →
    ∃ r', (l.map some).foldl (mergeStep none) (.ok (mr, r)) = .ok (mr, r') ∧
      r'.lookup k = r.lookup k
  | [], _, r, _, _ => ⟨r, rfl, rfl⟩
  | c :: rest, mr, r, k, h => by
      obtain ⟨b, hb, hnd, hbk⟩ := h c (by simp)
      rw [List.map_cons, List.foldl_cons, mergeStep_none_ok mr r c b hb]
      obtain ⟨r', hr', hlk⟩ := fold_mergeStep_preserves rest mr (deepmerge r b) k
        (fun c' hc' => h c' (by simp [hc']))
      refine ⟨r', hr', ?_⟩
      rw [hlk, deepmerge_lookup r b hnd k, hbk]

/-- **C2 (amended).** The document reader processes the given ordered
document locations in reverse (lowest precedence first: the fold in
`mergeDocs` runs over `docs.reverse`), so that for every key defined in
more than one document and bound to a *non-map (leaf)* value by the
document earliest in the given order (index 0, highest precedence) that
defines it, that document's value is the one that survives in the
merged tree; keys bound to nested maps by several documents are instead
merged recursively (see the counterexample).  Stated for an inactive
mode: documents before the first one binding `k` do not bind `k` at
all, the first binding document binds it to the non-map `v` in its
`base` section, and later (lower precedence) documents are arbitrary
well-formed documents — the merged tree binds `k` to `v`.  The
`\x7bbase:\x7ba:1\x7d\x7d` / `\x7bbase:\x7ba:2\x7d\x7d`
instance of the claim is the witness. -/
theorem claim_C2 (pre post : List YMap) (c bc : YMap) (k : String) (v : YVal)
    (hpre : ∀ m ∈ pre, ∃ b, m.lookup "base" = some (.vmap b) ∧
      b.noDupKeys = true ∧ b.lookup k = none)
    (hpost : ∀ m ∈ post, ∃ b, m.lookup "base" = some (.vmap b))
    (hc : c.lookup "base" = some (.vmap bc))
    (hcnd : bc.noDupKeys = true)
    (hck : bc.lookup k = some v)
    (hv : ∀ s, v ≠ .vmap s) :
    ∃ M, mergeDocs ((pre ++ c :: post).map some) none = .ok M ∧
      M.lookup k = some v := by
  have hrev : ((pre ++ c :: post).map some).reverse =
      (post.reverse.map some) ++ some c :: (pre.reverse.map some) := by
    simp
  obtain ⟨r₁, hr₁⟩ := fold_mergeStep_bases post.reverse false .nil
    (fun m hm => hpost m (List.mem_reverse.mp hm))
  obtain ⟨r₂, hr₂, hlk₂⟩ := fold_mergeStep_preserves pre.reverse false
    (deepmerge r₁ bc) k (fun m hm => hpre m (List.mem_reverse.mp hm))
  have hfold : ((pre ++ c :: post).map some).reverse.foldl (mergeStep none)
      (.ok (false, .nil)) = .ok (false, r₂) := by
    rw [hrev, List.foldl_append, hr₁, List.foldl_cons,
      mergeStep_none_ok false r₁ c bc hc, hr₂]
  refine ⟨r₂, ?_, ?_⟩
  · unfold mergeDocs
    rw [hfold]
  · rw [hlk₂, deepmerge_lookup r₁ bc hcnd k, hck]
    show some (mergeVal (r₁.lookup k) v) = some v
    rw [mergeVal_not_map_right _ _ hv]

/-- Counterexample to C2 as stated: when a key is bound to *nested
maps* in more than one document, the earliest document's value does not
survive wholly — the maps are merged recursively.  With the
highest-precedence document `\x7bbase:\x7ba:\x7bx:1\x7d\x7d\x7d`
over `\x7bbase:\x7ba:\x7by:2\x7d\x7d\x7d`, key `a` resolves to
the combined `\x7by:2, x:1\x7d`, not to document 0's value
`\x7bx:1\x7d`. -/
theorem claim_C2_counterexample :
    mergeDocs
      [some (.cons "base"
        (.vmap (.cons "a" (.vmap (.cons "x" (.vint 1) .nil)) .nil)) .nil),
       some (.cons "base"
        (.vmap (.cons "a" (.vmap (.cons "y" (.vint 2) .nil)) .nil)) .nil)]
      none
      = .ok (.cons "a"
          (.vmap (.cons "y" (.vint 2) (.cons "x" (.vint 1) .nil))) .nil)
  ∧ (YMap.cons "a"
      (.vmap (.cons "y" (.vint 2) (.cons "x" (.vint 1) .nil))) .nil).lookup "a"
      ≠ some (.vmap (.cons "x" (.vint 1) .nil)) := by
  refine ⟨rfl, ?_⟩
  simp [YMap.lookup]

/-- Witness for C2 at the spec's own example: documents
`\x7bbase:\x7ba:2\x7d\x7d` (given first, highest precedence) and
`\x7bbase:\x7ba:1\x7d\x7d`; `a` resolves to `2` in the merged tree. -/
theorem claim_C2_witness :
    mergeDocs [some (.cons "base" (.vmap (.cons "a" (.vint 2) .nil)) .nil),
               some (.cons "base" (.vmap (.cons "a" (.vint 1) .nil)) .nil)] none
      = .ok (.cons "a" (.vint 2) .nil)
  ∧ (YMap.cons "a" (.vint 2) .nil).lookup "a" = some (.vint 2) := by
  have h := claim_C2 []
    [(.cons "base" (.vmap (.cons "a" (.vint 1) .nil)) .nil)]
    (.cons "base" (.vmap (.cons "a" (.vint 2) .nil)) .nil)
    (.cons "a" (.vint 2) .nil) "a" (.vint 2)
    (fun m hm => absurd hm (List.not_mem_nil m))
    (fun m hm => by
      rw [List.mem_singleton] at hm
      subst hm
      exact ⟨.cons "a" (.vint 1) .nil, rfl⟩)
    rfl rfl rfl (fun s h => YVal.noConfusion h)
  obtain ⟨M, hM, hk⟩ := h
  have hconc : mergeDocs
      [some (.cons "base" (.vmap (.cons "a" (.vint 2) .nil)) .nil),
       some (.cons "base" (.vmap (.cons "a" (.vint 1) .nil)) .nil)] none
      = .ok (.cons "a" (.vint 2) .nil) := rfl
  have hMc : Except.ok (ε := String) M = .ok (YMap.cons "a" (.vint 2) .nil) :=
    hM.symm.trans hconc
  injection hMc with h'
  exact ⟨rfl, h' ▸ hk⟩

/-- **C6.** For every string leaf, post-processing first applies
environment-variable expansion of `$NAME`/`$\x7bNAME\x7d` forms
unconditionally (the `$`-form semantics live in the `expandvars`
collaborator; every branch below receives the expanded value), and then
at most one directive applies, first match wins: a value starting with
`~` gets home-directory expansion and no backend dispatch; otherwise a
value starting with `^keyfile ` or `^parameter ` is dispatched to
exactly that backend with the prefix stripped; a string matching no
directive is returned unchanged after expansion. -/
theorem claim_C6 (C : Collab) (v : String) :
    (strStartsWith (C.expandvars v) "~" = true →
        postprocess_str C v = C.expanduser (C.expandvars v))
  ∧ (strStartsWith (C.expandvars v) "~" = false →
     strStartsWith (C.expandvars v) "^keyfile " = true →
        postprocess_str C v = C.clrypt (strDrop (C.expandvars v) 9))
  ∧ (strStartsWith (C.expandvars v) "~" = false →
     strStartsWith (C.expandvars v) "^keyfile " = false →
     strStartsWith (C.expandvars v) "^parameter " = true →
        postprocess_str C v = C.ssm (strDrop (C.expandvars v) 11))
  ∧ (strStartsWith (C.expandvars v) "~" = false →
     strStartsWith (C.expandvars v) "^keyfile " = false →
     strStartsWith (C.expandvars v) "^parameter " = false →
        postprocess_str C v = C.expandvars v) := by
  refine ⟨?_, ?_, ?_, ?_⟩
  · intro h1
    simp [postprocess_str, h1]
  · intro h1 h2
    simp [postprocess_str, h1, h2]
  · intro h1 h2 h3
    simp [postprocess_str, h1, h2, h3]
  · intro h1 h2 h3
    simp [postprocess_str, h1, h2, h3]

/-- Witness for C6: one concrete string per dispatch branch, with the
identity collaborators. -/
theorem claim_C6_witness :
    postprocess_str idCollab "~/aaa" = "~/aaa"
  ∧ postprocess_str idCollab "^keyfile aaa" = ""
  ∧ postprocess_str idCollab "^parameter bbb" = ""
  ∧ postprocess_str idCollab "plain" = "plain" :=
  ⟨(claim_C6 idCollab "~/aaa").1 rfl,
   (claim_C6 idCollab "^keyfile aaa").2.1 rfl rfl,
   (claim_C6 idCollab "^parameter bbb").2.2.1 rfl rfl rfl,
   (claim_C6 idCollab "plain").2.2.2 rfl rfl rfl⟩

mutual
theorem ppVal_noNullDirect : ∀ (C : Collab) (p k : String) (v v' : YVal),
    ppVal C p k v = .ok v' → hasNullDirectVal v' = false
  | C, p, k, .vmap m, v', h => by
      simp only [ppVal] at h
      rcases hm : ppMap C (p ++ k ++ ".") m with e | mm <;> rw [hm] at h
      · simp at h
      · injection h with h'
        rw [← h']
        exact ppMap_noNullDirect C (p ++ k ++ ".") m mm hm
  | C, p, k, .vnull, v', h => by
      simp only [ppVal] at h
      injection h with h'
      rw [← h']
      rfl
  | C, p, k, .vstr s, v', h => by
      simp only [ppVal] at h
      injection h with h'
      rw [← h']
      rfl
  | C, p, k, .vbool b, v', h => by
      simp only [ppVal] at h
      injection h with h'
      rw [← h']
      rfl
  | C, p, k, .vint n, v', h => by
      simp only [ppVal] at h
      injection h with h'
      rw [← h']
      rfl
  | C, p, k, .vfloat x, v', h => by
      simp only [ppVal] at h
      injection h with h'
      rw [← h']
      rfl
  | C, p, k, .vlist xs, v', h => by
      simp only [ppVal] at h
      injection h with h'
      rw [← h']
      rfl
  | C, p, k, .vsecret a b, v', h => by
      simp [ppVal] at h

theorem ppMap_noNullDirect : ∀ (C : Collab) (p : String) (m m' : YMap),
    ppMap C p m = .ok m' → hasNullDirectMap m' = false
  | C, p, .nil, m', h => by
      simp only [ppMap] at h
      injection h with h'
      rw [← h']
      rfl
  | C, p, .cons k v rest, m', h => by
      simp only [ppMap] at h
      by_cases hks : strStartsWith k "_" = true
      · rw [if_pos hks] at h
        simp at h
      · rw [if_neg hks] at h
        rcases hv : ppVal C p k v with e | v₁ <;> rw [hv] at h
        · simp at h
        · rcases hr : ppMap C p rest with e | rest₁ <;> rw [hr] at h
          · simp at h
          · injection h with h'
            rw [← h']
            simp [hasNullDirectMap, ppVal_noNullDirect C p k v v₁ hv,
              ppMap_noNullDirect C p rest rest₁ hr]
end

theorem ppMap_lookup_null : ∀ (C : Collab) (p : String) (m m' : YMap) (k : String),
    ppMap C p m = .ok m' → m.lookup k = some .vnull →
    m'.lookup k = some (.vstr "")
  | C, p, .nil, m', k, h, hl => by simp [YMap.lookup] at hl
  | C, p, .cons k0 v rest, m', k, h, hl => by
      simp only [ppMap] at h
      by_cases hks : strStartsWith k0 "_" = true
      · rw [if_pos hks] at h
        simp at h
      · rw [if_neg hks] at h
        rcases hv : ppVal C p k0 v with e | v₁ <;> rw [hv] at h
        · simp at h
        · rcases hr : ppMap C p rest with e | rest₁ <;> rw [hr] at h
          · simp at h
          · injection h with h'
            by_cases hk : k = k0
            · subst hk
              simp [YMap.lookup] at hl
              subst hl
              simp only [ppVal] at hv
              injection hv with hv'
              rw [← h', ← hv']
              simp [YMap.lookup]
            · simp [YMap.lookup, hk] at hl
              rw [← h']
              simp only [YMap.lookup, hk, if_false]
              exact ppMap_lookup_null C p rest rest₁ k hr hl

/-- **C7 (amended).** A leaf bound directly to null in the merged
document tree resolves to the empty string during post-processing, and
after a successful read no map anywhere in the readable tree binds a
key directly to an explicit null — the coercion happens at read time,
before any access.  (As the counterexample shows, a null hidden inside
a *list* leaf is not coerced: the reader never visits list elements, so
the original claim's "no explicit null anywhere" fails.) -/
theorem claim_C7_amended (C : Collab) (docs : List (Option YMap))
    (mode : Option String) (m' : YMap)
    (h : EnvReader_read C docs mode = .ok m') :
    hasNullDirectMap m' = false
  ∧ ∀ merged k, mergeDocs docs mode = .ok merged →
      merged.lookup k = some .vnull → m'.lookup k = some (.vstr "") := by
  unfold EnvReader_read at h
  rcases hm : mergeDocs docs mode with e | merged0 <;> rw [hm] at h
  · simp at h
  · refine ⟨ppMap_noNullDirect C "" merged0 m' h, ?_⟩
    intro merged k hm' hl
    have hmeq : merged = merged0 := by
      injection hm' with he
      exact he.symm
    subst hmeq
    exact ppMap_lookup_null C "" merged m' k h hl

/-- Counterexample to C7 as stated: the document
`\x7bbase: \x7bfoo: [null]\x7d\x7d` reads successfully, and the tree
the caller reads still contains an explicit null — inside the list
leaf `foo` — because post-processing never visits list elements. -/
theorem claim_C7_counterexample :
    EnvReader_read idCollab
      [some (.cons "base"
        (.vmap (.cons "foo" (.vlist (.cons .vnull .nil)) .nil)) .nil)] none
      = .ok (.cons "foo" (.vlist (.cons .vnull .nil)) .nil)
  ∧ hasNullAnywhereMap (.cons "foo" (.vlist (.cons .vnull .nil)) .nil) = true :=
  ⟨rfl, rfl⟩

/-- Witness for the amended C7: the document
`\x7bbase: \x7bfoo: null\x7d\x7d` reads to `\x7bfoo: ""\x7d`, which has
no direct null, and the null leaf resolved to the empty string. -/
theorem claim_C7_witness :
    hasNullDirectMap (.cons "foo" (.vstr "") .nil) = false
  ∧ (YMap.cons "foo" (.vstr "") .nil).lookup "foo" = some (.vstr "") := by
  have h := claim_C7_amended idCollab
    [some (.cons "base" (.vmap (.cons "foo" .vnull .nil)) .nil)] none
    (.cons "foo" (.vstr "") .nil) rfl
  exact ⟨h.1, h.2 (.cons "foo" .vnull .nil) "foo" rfl rfl⟩

/-- **C1.** For every tree node and every requested key, a read resolves
the value from exactly three sources in strict priority order: a runtime
override stored under the node's key path wins over an environment
variable named by upper-casing the `CLRENV`-prefixed,
double-underscore-joined key path (the first conjunct spells the name
out), which in turn wins over the value in the node's cached merged
subtree; in particular, when both a runtime override and an environment
variable are set for the same key, the runtime override's value is
returned (second conjunct, which holds for every state of `os.environ`). -/
theorem claim_C1 (root : RootState) (keyPath : List String) (env : YMap)
    (key : String) :
    (make_env_var_name (keyPath ++ [key]) =
      strToUpper (strJoin "__" ("CLRENV" :: (keyPath ++ [key]))))
  ∧ (∀ v, lookupOverride root keyPath key = some v →
      evaluateKey root keyPath env key = some v)
  ∧ (lookupOverride root keyPath key = none →
      ∀ s, alookup root.osEnv (make_env_var_name (keyPath ++ [key])) = some s →
        evaluateKey root keyPath env key = some (.vstr s))
  ∧ (lookupOverride root keyPath key = none →
      alookup root.osEnv (make_env_var_name (keyPath ++ [key])) = none →
      ∀ v, env.lookup key = some v →
        evaluateKey root keyPath env key = some v) := by
  refine ⟨rfl, ?_, ?_, ?_⟩
  · intro v hv
    unfold evaluateKey
    rw [hv]
  · intro h0 s hs
    unfold evaluateKey
    rw [h0, hs]
  · intro h0 h1 v hv
    unfold evaluateKey
    rw [h0, h1, hv]

/-- Witness for C1: with both an override and the environment variable
`CLRENV__A` set for key `a`, the override's value is returned; with the
override absent, the variable's raw value; with both absent, the merged
document value. -/
theorem claim_C1_witness :
    evaluateKey ⟨[([], [("a", .vstr "ov")])], [("CLRENV__A", "ev")]⟩ []
      (.cons "a" (.vstr "doc") .nil) "a" = some (.vstr "ov")
  ∧ evaluateKey ⟨[], [("CLRENV__A", "ev")]⟩ []
      (.cons "a" (.vstr "doc") .nil) "a" = some (.vstr "ev")
  ∧ evaluateKey ⟨[], []⟩ [] (.cons "a" (.vstr "doc") .nil) "a"
      = some (.vstr "doc") :=
  ⟨(claim_C1 ⟨[([], [("a", .vstr "ov")])], [("CLRENV__A", "ev")]⟩ []
      (.cons "a" (.vstr "doc") .nil) "a").2.1 _ rfl,
   (claim_C1 ⟨[], [("CLRENV__A", "ev")]⟩ []
      (.cons "a" (.vstr "doc") .nil) "a").2.2.1 rfl _ rfl,
   (claim_C1 ⟨[], []⟩ [] (.cons "a" (.vstr "doc") .nil) "a").2.2.2 rfl rfl _ rfl⟩

/-- **C10.** Whenever a key resolves from an environment variable, the
value returned is the raw variable string exactly as stored in the
process environment — never cast to the type of the document value it
shadows (the equation holds for every merged subtree `env`, whatever
type the document leaf has) — and because the environment-variable check
precedes the merged-subtree lookup, a variable set at the path of a
nested map shadows the entire subtree with that single string leaf
(second conjunct). -/
theorem claim_C10 (root : RootState) (keyPath : List String) (env : YMap)
    (key : String) (s : String)
    (hov : lookupOverride root keyPath key = none)
    (henv : alookup root.osEnv (make_env_var_name (keyPath ++ [key])) = some s) :
    evaluateKey root keyPath env key = some (.vstr s)
  ∧ ∀ sub, env.lookup key = some (.vmap sub) →
      evaluateKey root keyPath env key = some (.vstr s) := by
  have h : evaluateKey root keyPath env key = some (.vstr s) := by
    unfold evaluateKey
    rw [hov, henv]
  exact ⟨h, fun _ _ => h⟩

/-- Witness for C10: `CLRENV__AA` shadows the whole nested map `aa`
with the raw string `"zz"`, and `CLRENV__N` shadows the integer leaf
`n = 7` with the raw (uncast) string `"5"`. -/
theorem claim_C10_witness :
    evaluateKey ⟨[], [("CLRENV__AA", "zz")]⟩ []
      (.cons "aa" (.vmap (.cons "bb" (.vstr "cc") .nil)) .nil) "aa"
      = some (.vstr "zz")
  ∧ evaluateKey ⟨[], [("CLRENV__N", "5")]⟩ [] (.cons "n" (.vint 7) .nil) "n"
      = some (.vstr "5") :=
  ⟨(claim_C10 ⟨[], [("CLRENV__AA", "zz")]⟩ []
      (.cons "aa" (.vmap (.cons "bb" (.vstr "cc") .nil)) .nil) "aa" "zz"
      rfl rfl).2 (.cons "bb" (.vstr "cc") .nil) rfl,
   (claim_C10 ⟨[], [("CLRENV__N", "5")]⟩ [] (.cons "n" (.vint 7) .nil) "n" "5"
      rfl rfl).1⟩

/-- **C5 (code bug).** The claim — and the `evaluate.py` module
docstring ("read lazily when the first attribute is referenced and
never reloaded") — say the subtree cache makes one monotonic
uninitialized-to-populated transition and is never re-fetched.  But the
`_env` property guards with `if not self._cached_env:` (Python
truthiness), so a cached *empty* mapping is indistinguishable from the
uninitialized `None` and `_make_env` runs again on every access.  The
one-document set `\x7bbase: \x7b\x7d\x7d` merges (and fully reads) to
the empty mapping (first two conjuncts), so at the root both the first
and the second access invoke `_make_env`, i.e. re-read the documents
from disk (third and fourth conjuncts).  For a non-empty subtree the
claimed behavior holds: the second access does not fetch and returns
the cached value (last two conjuncts). -/
theorem claim_C5_code_bug :
    mergeDocs [some (.cons "base" (.vmap .nil) .nil)] none = .ok .nil
  ∧ EnvReader_read idCollab [some (.cons "base" (.vmap .nil) .nil)] none
      = .ok .nil
  ∧ (envProp none .nil).2.2 = true
  ∧ (envProp (envProp none .nil).2.1 .nil).2.2 = true
  ∧ (envProp (envProp none (.cons "a" (.vstr "b") .nil)).2.1 .nil).2.2 = false
  ∧ (envProp (envProp none (.cons "a" (.vstr "b") .nil)).2.1 .nil).1
      = .cons "a" (.vstr "b") .nil :=
  ⟨rfl, rfl, rfl, rfl, rfl, rfl⟩

/-- Counterexample to C9 as stated: the claim allows a homogeneous
primitive list as an override value, but
`isinstance(value, (bool, int, float, str))` rejects every list — here
`[1]` on the existing key `a`. -/
theorem claim_C9_counterexample :
    set_runtime_override ⟨[], []⟩ (.cons "a" (.vstr "b") .nil) ["a"]
      (.pylist [.pyint 1])
      = .error "Env values must be one of \x7bstr, int, float, boolean\x7d." := rfl

/-- **C9 (amended).** `set_runtime_override` validates its inputs: an
empty key path is an error; every segment of the path must already
resolve to an existing key; and the value must be a primitive — bool,
int, float or str.  Every list (a homogeneous primitive list included),
`None`, mappings and arbitrary objects are rejected with a descriptive
error.  A rejection raises before the store is touched (the `.error`
result carries no updated store), and a valid call stores the value
under (parent path, leaf key). -/
theorem claim_C9_amended (root : RootState) (rootEnv : YMap)
    (kp : List String) (v : PyVal) :
    (kp = [] → set_runtime_override root rootEnv kp v =
      .error "key_path can not be empty.")
  ∧ (kp ≠ [] → walkExists root kp [] rootEnv = false →
      set_runtime_override root rootEnv kp v =
        .error "assertion failed: key path does not already resolve")
  ∧ (kp ≠ [] → walkExists root kp [] rootEnv = true →
      isPrimInstance v = false →
      set_runtime_override root rootEnv kp v =
        .error "Env values must be one of \x7bstr, int, float, boolean\x7d.")
  ∧ (∀ xs, isPrimInstance (.pylist xs) = false)
  ∧ isPrimInstance .pynone = false
  ∧ isPrimInstance .pydict = false
  ∧ isPrimInstance .pyobj = false
  ∧ (kp ≠ [] → walkExists root kp [] rootEnv = true →
      isPrimInstance v = true →
      set_runtime_override root rootEnv kp v =
        .ok (aset root.overrides kp.dropLast
          (aset ((alookup root.overrides kp.dropLast).getD [])
            (kp.getLastD "") (pyPrimToYVal v)))) := by
  refine ⟨?_, ?_, ?_, fun xs => rfl, rfl, rfl, rfl, ?_⟩
  · intro h
    subst h
    rfl
  · intro h1 h2
    cases kp with
    | nil => exact absurd rfl h1
    | cons a l =>
        simp [set_runtime_override, h2]
  · intro h1 h2 h3
    cases kp with
    | nil => exact absurd rfl h1
    | cons a l =>
        simp [set_runtime_override, h2, h3]
  · intro h1 h2 h3
    cases kp with
    | nil => exact absurd rfl h1
    | cons a l =>
        simp [set_runtime_override, h2, h3]

/-- Witness for the amended C9, over the document tree
`\x7ba: "b"\x7d`: empty path rejected; never-defined key rejected;
`None` rejected; a plain string stored under `((), "a")`. -/
theorem claim_C9_witness :
    set_runtime_override ⟨[], []⟩ (.cons "a" (.vstr "b") .nil) [] (.pystr "z")
      = .error "key_path can not be empty."
  ∧ set_runtime_override ⟨[], []⟩ (.cons "a" (.vstr "b") .nil) ["missing"]
      (.pystr "z")
      = .error "assertion failed: key path does not already resolve"
  ∧ set_runtime_override ⟨[], []⟩ (.cons "a" (.vstr "b") .nil) ["a"] .pynone
      = .error "Env values must be one of \x7bstr, int, float, boolean\x7d."
  ∧ set_runtime_override ⟨[], []⟩ (.cons "a" (.vstr "b") .nil) ["a"]
      (.pystr "z") = .ok [([], [("a", .vstr "z")])] :=
  ⟨(claim_C9_amended ⟨[], []⟩ (.cons "a" (.vstr "b") .nil) [] (.pystr "z")).1
      rfl,
   (claim_C9_amended ⟨[], []⟩ (.cons "a" (.vstr "b") .nil) ["missing"]
      (.pystr "z")).2.1 (List.cons_ne_nil _ _) rfl,
   (claim_C9_amended ⟨[], []⟩ (.cons "a" (.vstr "b") .nil) ["a"] .pynone).2.2.1
      (List.cons_ne_nil _ _) rfl rfl,
   (claim_C9_amended ⟨[], []⟩ (.cons "a" (.vstr "b") .nil) ["a"]
      (.pystr "z")).2.2.2.2.2.2.2 (List.cons_ne_nil _ _) rfl rfl⟩

theorem postprocess_strC_missing (C : Collab) (getenv : String → Option String)
    (kp value : String) (v' : YVal) (miss : List MissingEnvVar)
    (h : postprocess_strC C getenv kp value = .ok (v', miss)) :
    ∀ e ∈ miss, e.env_var = strToUpper e.chamber_var_name ∧
      (getenv e.env_var = none ∨ getenv e.env_var = some "") := by
  simp only [postprocess_strC] at h
  split at h
  · injection h with h'
    injection h' with h₁ h₂
    subst h₂
    simp
  · split at h
    · injection h with h'
      injection h' with h₁ h₂
      subst h₂
      simp
    · split at h
      · injection h with h'
        injection h' with h₁ h₂
        subst h₂
        simp
      · split at h
        · split at h
          · simp at h
          · split at h
            · rename_i heq
              injection h with h'
              injection h' with h₁ h₂
              subst h₂
              intro e he
              rw [List.mem_singleton] at he
              subst he
              exact ⟨rfl, Or.inl heq⟩
            · rename_i heq
              injection h with h'
              injection h' with h₁ h₂
              subst h₂
              intro e he
              rw [List.mem_singleton] at he
              subst he
              exact ⟨rfl, Or.inr heq⟩
            · rename_i s heq
              injection h with h'
              injection h' with h₁ h₂
              subst h₂
              simp
        · injection h with h'
          injection h' with h₁ h₂
          subst h₂
          simp

mutual
theorem ppValC_missing : ∀ (C : Collab) (getenv : String → Option String)
    (p k : String) (v v' : YVal) (miss : List MissingEnvVar),
    ppValC C getenv p k v = .ok (v', miss) →
    ∀ e ∈ miss, e.env_var = strToUpper e.chamber_var_name ∧
      (getenv e.env_var = none ∨ getenv e.env_var = some "")
  | C, g, p, k, .vmap m, v', miss, h => by
      simp only [ppValC] at h
      rcases hm : ppMapC C g (p ++ k ++ ".") m with e | out <;> rw [hm] at h
      · simp at h
      · obtain ⟨m', miss'⟩ := out
        injection h with h'
        injection h' with h₁ h₂
        subst h₂
        exact ppMapC_missing C g (p ++ k ++ ".") m m' miss' hm
  | C, g, p, k, .vnull, v', miss, h => by
      simp only [ppValC] at h
      injection h with h'
      injection h' with h₁ h₂
      subst h₂
      simp
  | C, g, p, k, .vstr s, v', miss, h => by
      simp only [ppValC] at h
      exact postprocess_strC_missing C g (p ++ k) s v' miss h
  | C, g, p, k, .vbool b, v', miss, h => by
      simp only [ppValC] at h
      injection h with h'
      injection h' with h₁ h₂
      subst h₂
      simp
  | C, g, p, k, .vint n, v', miss, h => by
      simp only [ppValC] at h
      injection h with h'
      injection h' with h₁ h₂
      subst h₂
      simp
  | C, g, p, k, .vfloat x, v', miss, h => by
      simp only [ppValC] at h
      injection h with h'
      injection h' with h₁ h₂
      subst h₂
      simp
  | C, g, p, k, .vlist xs, v', miss, h => by
      simp only [ppValC] at h
      injection h with h'
      injection h' with h₁ h₂
      subst h₂
      simp
  | C, g, p, k, .vsecret a b, v', miss, h => by
      simp [ppValC] at h

theorem ppMapC_missing : ∀ (C : Collab) (getenv : String → Option String)
    (p : String) (m m' : YMap) (miss : List MissingEnvVar),
    ppMapC C getenv p m = .ok (m', miss) →
    ∀ e ∈ miss, e.env_var = strToUpper e.chamber_var_name ∧
      (getenv e.env_var = none ∨ getenv e.env_var = some "")
  | C, g, p, .nil, m', miss, h => by
      simp only [ppMapC] at h
      injection h with h'
      injection h' with h₁ h₂
      subst h₂
      simp
  | C, g, p, .cons k v rest, m', miss, h => by
      simp only [ppMapC] at h
      by_cases hks : strStartsWith k "_" = true
      · rw [if_pos hks] at h
        simp at h
      · rw [if_neg hks] at h
        rcases hv : ppValC C g p k v with e | out <;> rw [hv] at h
        · simp at h
        · obtain ⟨v₁, miss₁⟩ := out
          rcases hr : ppMapC C g p rest with e | out₂ <;> rw [hr] at h
          · simp at h
          · obtain ⟨rest₁, miss₂⟩ := out₂
            injection h with h'
            injection h' with h₁ h₂
            subst h₂
            intro e he
            rw [List.mem_append] at he
            rcases he with he | he
            · exact ppValC_missing C g p k v v₁ miss₁ hv e he
            · exact ppMapC_missing C g p rest rest₁ miss₂ hr e he
end

/-- **C4.** (spec-modelled: the chamber-capable `read.py` is absent from
`src/`.)  For every read pass in which one or more `^chamber/v1`
directive leaves map to environment variables that are absent or empty,
the whole read fails with one single aggregated error raised at the end
that lists every missing mapping — each entry carrying the key path,
the directive argument, and the derived upper-cased
environment-variable name (second conjunct: every listed entry's
`env_var` is the upper-cased directive argument and is indeed absent or
empty) — rather than failing on the first missing variable
encountered. -/
theorem claim_C4 (C : Collab) (getenv : String → Option String)
    (docs : List (Option YMap)) (mode : Option String) (merged m : YMap)
    (missing : List MissingEnvVar)
    (hm : mergeDocs docs mode = .ok merged)
    (hp : ppMapC C getenv "" merged = .ok (m, missing))
    (hne : missing ≠ []) :
    EnvReader_readC C getenv docs mode = .error (.missingEnvVars missing)
  ∧ ∀ e ∈ missing, e.env_var = strToUpper e.chamber_var_name ∧
      (getenv e.env_var = none ∨ getenv e.env_var = some "") := by
  constructor
  · have hie : missing.isEmpty = false := by
      cases missing with
      | nil => exact absurd rfl hne
      | cons a l => rfl
    simp [EnvReader_readC, hm, hp, hie]
  · exact fun e he => ppMapC_missing C getenv "" merged m missing hp e he

/-- Witness for C4: a document with two chamber leaves whose variables
are missing (`AAA` unset) or empty (`BBB_OK` set to `""`) fails with the
single aggregated error listing both, and both listed entries satisfy
the name/absence properties. -/
theorem claim_C4_witness :
    EnvReader_readC idCollab
      (fun n => if n = "BBB_OK" then some "" else none)
      [some (.cons "base" (.vmap
        (.cons "foo" (.vstr "^chamber/v1 aaa")
          (.cons "ns" (.vmap (.cons "quux" (.vstr "^chamber/v1 bbb_ok") .nil))
            .nil))) .nil)] none
      = .error (.missingEnvVars
          [⟨"foo", "aaa", "AAA"⟩, ⟨"ns.quux", "bbb_ok", "BBB_OK"⟩])
  ∧ ((⟨"foo", "aaa", "AAA"⟩ : MissingEnvVar).env_var = strToUpper "aaa"
      ∧ ((fun n => if n = "BBB_OK" then some "" else none) "AAA" = none ∨
         (fun n => if n = "BBB_OK" then some "" else none) "AAA" = some "")) := by
  have h := claim_C4 idCollab (fun n => if n = "BBB_OK" then some "" else none)
    [some (.cons "base" (.vmap
      (.cons "foo" (.vstr "^chamber/v1 aaa")
        (.cons "ns" (.vmap (.cons "quux" (.vstr "^chamber/v1 bbb_ok") .nil))
          .nil))) .nil)] none
    (.cons "foo" (.vstr "^chamber/v1 aaa")
      (.cons "ns" (.vmap (.cons "quux" (.vstr "^chamber/v1 bbb_ok") .nil)) .nil))
    (.cons "foo" (.vstr "")
      (.cons "ns" (.vmap (.cons "quux" (.vstr "") .nil)) .nil))
    [⟨"foo", "aaa", "AAA"⟩, ⟨"ns.quux", "bbb_ok", "BBB_OK"⟩]
    rfl rfl (List.cons_ne_nil _ _)
  exact ⟨h.1, h.2 ⟨"foo", "aaa", "AAA"⟩ (List.mem_cons_self _ _)⟩

mutual
theorem reprVal_scrub : ∀ (v : YVal), reprVal (scrubVal v) = reprVal v
  | .vbool b => rfl
  | .vint n => rfl
  | .vfloat x => rfl
  | .vstr s => rfl
  | .vnull => rfl
  | .vlist xs => by
      simp only [scrubVal, reprVal]
      rw [reprListEntries_scrub xs]
  | .vsecret src value => rfl
  | .vmap m => by
      simp only [scrubVal, reprVal]
      rw [reprMapEntries_scrub m]

theorem reprListEntries_scrub : ∀ (xs : YList),
    reprListEntries (scrubList xs) = reprListEntries xs
  | .nil => rfl
  | .cons v .nil => by
      simp only [scrubList, reprListEntries]
      rw [reprVal_scrub v]
  | .cons v (.cons w rest) => by
      simp only [scrubList, reprListEntries]
      rw [reprVal_scrub v]
      have h := reprListEntries_scrub (.cons w rest)
      simp only [scrubList] at h
      rw [h]

theorem reprMapEntries_scrub : ∀ (m : YMap),
    reprMapEntries (scrubMap m) = reprMapEntries m
  | .nil => rfl
  | .cons k v .nil => by
      simp only [scrubMap, reprMapEntries]
      rw [reprVal_scrub v]
  | .cons k v (.cons k' w rest) => by
      simp only [scrubMap, reprMapEntries]
      rw [reprVal_scrub v]
      have h := reprMapEntries_scrub (.cons k' w rest)
      simp only [scrubMap] at h
      rw [h]
end

/-- **C8.** (spec-modelled in part: secret wrapping on read and secret
unwrapping on access live in the newer `read.py`/`evaluate.py` absent
from `src/`; `Secret.__repr__` and `SubClrEnv.__repr__` are from
`src/`.)  A resolved secret's plain value never appears in any textual
representation: `Secret`'s repr depends only on the `source` field (two
secrets with the same source and different values have identical
representations — first conjunct), and a node representation is
invariant under replacing every secret value by `""` (second conjunct),
so it can carry no information about the values; concretely, reading
`\x7bbase: \x7bfoo: "^keyfile aaa"\x7d\x7d` with a key file mapping
`aaa` to `bbb` yields a tree whose representation shows the unresolved
directive text `^keyfile aaa` and never the resolved value `bbb`, while
a normal read of `foo` still returns the plain `"bbb"`. -/
theorem claim_C8 :
    (∀ (s t : Secret), s.source = t.source →
      Secret.reprStr s = Secret.reprStr t)
  ∧ (∀ (kp : List String) (env : YMap),
      SubClrEnv_repr kp (scrubMap env) = SubClrEnv_repr kp env)
  ∧ EnvReader_readC
      ⟨id, id, fun n => if n = "aaa" then "bbb" else "", fun _ => ""⟩
      (fun _ => none)
      [some (.cons "base" (.vmap (.cons "foo" (.vstr "^keyfile aaa") .nil))
        .nil)] none
      = .ok (.cons "foo" (.vsecret "^keyfile aaa" "bbb") .nil)
  ∧ strContains
      (SubClrEnv_repr [] (.cons "foo" (.vsecret "^keyfile aaa" "bbb") .nil))
      "^keyfile aaa" = true
  ∧ strContains
      (SubClrEnv_repr [] (.cons "foo" (.vsecret "^keyfile aaa" "bbb") .nil))
      "bbb" = false
  ∧ evaluateKeyUnwrap ⟨[], []⟩ []
      (.cons "foo" (.vsecret "^keyfile aaa" "bbb") .nil) "foo"
      = some (.vstr "bbb") := by
  refine ⟨?_, ?_, rfl, rfl, rfl, rfl⟩
  · intro s t h
    cases s
    cases t
    simp only [Secret.reprStr] at *
    rw [h]
  · intro kp env
    unfold SubClrEnv_repr
    have h : reprVal (.vmap (scrubMap env)) = reprVal (.vmap env) :=
      reprVal_scrub (.vmap env)
    rw [h]

/-- Witness for C8: two secrets sharing the source `^keyfile aaa` with
different plain values have the same representation. -/
theorem claim_C8_witness :
    Secret.reprStr ⟨"^keyfile aaa", "bbb"⟩
      = Secret.reprStr ⟨"^keyfile aaa", "other"⟩ :=
  claim_C8.1 ⟨"^keyfile aaa", "bbb"⟩ ⟨"^keyfile aaa", "other"⟩ rfl

end Clrenv
